import Mathlib

/-!
# Verification of the gemini-pydantic library pipeline

A shallow embedding of the repository's data model and operations:
the markdown-fence cleaner (`utils/json_cleaner.py`), the pydantic
`Book`/`Library` schema (`models/library.py`), the analysis functions
(`analysis/data_analyzer.py`) and the environment-backed settings
(`config/settings.py`), together with theorems settling the spec claims.

Python text is modelled as `List Char` (`PyStr`), which makes string
slicing, stripping and prefix tests directly computable and provable.
-/

/-- Python strings are modelled as lists of characters. -/
abbrev PyStr := List Char

/-- The ASCII whitespace characters removed by Python's `str.strip()`
(space, tab, newline, carriage return, vertical tab, form feed).
Non-ASCII Unicode spaces are not needed by any input considered here. -/
def isPySpace (c : Char) : Bool :=
  c = ' ' || c = '\t' || c = '\n' || c = '\r' || c = '\x0b' || c = '\x0c'

/-- Python `str.lstrip()`: drop leading whitespace. -/
def pyStripLeft (s : PyStr) : PyStr := s.dropWhile isPySpace

/-- Python `str.strip()`: drop leading and trailing whitespace. -/
def pyStrip (s : PyStr) : PyStr :=
  ((pyStripLeft s).reverse.dropWhile isPySpace).reverse

/-- Python `str.lower()` (exact on the ASCII range). -/
def pyLower (s : PyStr) : PyStr := s.map Char.toLower

namespace JSONCleaner

/-- The bare markdown fence marker, three backticks. -/
def fenceMarker : PyStr := "```".toList

/-- The json-tagged markdown fence marker. -/
def fenceJsonMarker : PyStr := "```json".toList

/-- The error message raised on empty input. -/
def emptyMsg : PyStr := "Response text is empty".toList

/-- `JSONCleaner.clean_json_response` from `src/utils/json_cleaner.py`:
raise on empty input, strip surrounding whitespace, drop a leading
"```json" (7 chars) else a leading "```" (3 chars), drop a trailing
"```" (3 chars) if present, and strip again.  Raising `ValueError` is
modelled as `Except.error`. -/
def clean_json_response (response_text : PyStr) : Except PyStr PyStr :=
  if response_text = [] then
    .error emptyMsg
  else
    let cleaned := pyStrip response_text
    let cleaned :=
      if fenceJsonMarker.isPrefixOf cleaned then cleaned.drop 7
      else if fenceMarker.isPrefixOf cleaned then cleaned.drop 3
      else cleaned
    let cleaned :=
      if fenceMarker.isSuffixOf cleaned then cleaned.take (cleaned.length - 3)
      else cleaned
    .ok (pyStrip cleaned)

end JSONCleaner

/-- Parsed JSON values, the output domain of Python's `json.loads` /
pydantic's JSON decoding.  Numbers are restricted to integers, which is
all the `Book`/`Library` schema uses. -/
inductive Json where
  | null : Json
  | bool (b : Bool) : Json
  | num (n : Int) : Json
  | str (s : PyStr) : Json
  | arr (elems : List Json) : Json
  | obj (fields : List (PyStr × Json)) : Json

/-- Field access in a parsed JSON object (keys of a parsed object are
distinct, so first-match lookup is exact). -/
def jLookup (fields : List (PyStr × Json)) (key : PyStr) : Option Json :=
  (fields.find? (fun p => p.1 == key)).map (·.2)

/-- The JSON field names of the `Book`/`Library` schema. -/
def titleKey : PyStr := "title".toList

def authorKey : PyStr := "author".toList

def yearKey : PyStr := "year".toList

def nameKey : PyStr := "name".toList

def booksKey : PyStr := "books".toList

/-- The `Book` model of `src/models/library.py`: title, author and
publication year. -/
structure Book where
  title : PyStr
  author : PyStr
  year : Int
deriving DecidableEq

/-- The `Library` model of `src/models/library.py`: a name and a list
of books. -/
structure Library where
  name : PyStr
  books : List Book
deriving DecidableEq

/-- Validated construction of a `Book` from raw field values, as pydantic
performs it with `str_strip_whitespace = True`: both strings are stripped
first, then `min_length=1` is checked on the stripped values, and the year
must satisfy `gt=1000` and `le=current_year` (`datetime.now().year`,
passed here as `cy`).  A validation failure is `none`. -/
def Book.construct (cy : Int) (title author : PyStr) (year : Int) : Option Book :=
  if pyStrip title ≠ [] ∧ pyStrip author ≠ [] ∧ 1000 < year ∧ year ≤ cy then
    some ⟨pyStrip title, pyStrip author, year⟩
  else none

/-- `Book.model_validate` on a parsed JSON value: the value must be an
object supplying a string `title`, a string `author` and an integer
`year`, which are then validated by `Book.construct`. -/
def Book.model_validate (cy : Int) (j : Json) : Option Book :=
  match j with
  | .obj fields =>
    match jLookup fields titleKey, jLookup fields authorKey,
          jLookup fields yearKey with
    | some (.str t), some (.str a), some (.num y) => Book.construct cy t a y
    | _, _, _ => none
  | _ => none

/-- Validation of the `books` list: every entry must validate, otherwise
the whole list is rejected. -/
def validateBooks (cy : Int) : List Json → Option (List Book)
  | [] => some []
  | j :: js =>
    match Book.model_validate cy j, validateBooks cy js with
    | some b, some bs => some (b :: bs)
    | _, _ => none

/-- `Library.model_validate` on a parsed JSON value: the value must be an
object supplying a string `name` (stripped, non-empty after stripping)
and an array `books` all of whose entries validate as books. -/
def Library.model_validate (cy : Int) (j : Json) : Option Library :=
  match j with
  | .obj fields =>
    match jLookup fields nameKey, jLookup fields booksKey with
    | some (.str n), some (.arr bs) =>
      if pyStrip n ≠ [] then (validateBooks cy bs).map (Library.mk (pyStrip n))
      else none
    | _, _ => none
  | _ => none

/-- `Book.model_dump`: the JSON object serialized for a book. -/
def Book.model_dump (b : Book) : Json :=
  .obj [(titleKey, .str b.title), (authorKey, .str b.author),
        (yearKey, .num b.year)]

/-- `Library.model_dump`: the JSON object serialized for a library
(`model_dump_json` renders exactly this value as text). -/
def Library.model_dump (L : Library) : Json :=
  .obj [(nameKey, .str L.name), (booksKey, .arr (L.books.map Book.model_dump))]

/-- `Library.get_books_by_author` from `src/models/library.py`: keep the
books whose lowercased author equals the lowercased argument. -/
def Library.get_books_by_author (L : Library) (author : PyStr) : List Book :=
  L.books.filter (fun book => pyLower book.author == pyLower author)

namespace LibraryAnalyzer

/-- Python's floor division `y // 10` times 10, the decade bucket used by
`decade_analysis`. -/
def decadeOf (y : Int) : Int := y.fdiv 10 * 10

/-- `LibraryAnalyzer.decade_analysis` from `src/analysis/data_analyzer.py`:
bucket each year to its decade, count occurrences per decade
(`value_counts`), sort by decade ascending (`sort_index`) and render each
key as `f"{decade}s"`. -/
def decade_analysis (L : Library) : List (PyStr × Nat) :=
  let decades := L.books.map (fun b => decadeOf b.year)
  (List.insertionSort (· ≤ ·) decades.dedup).map
    (fun d => ((toString d).toList ++ "s".toList, decades.count d))

/-- The four age-category counters of `LibraryAnalyzer.age_analysis`
(the remaining report entries — average age, oldest and newest book —
are not needed by any claim). -/
structure AgeCategories where
  classic_books : Nat
  mid_century_books : Nat
  modern_books : Nat
  contemporary_books : Nat
deriving DecidableEq

/-- `LibraryAnalyzer.age_analysis` from `src/analysis/data_analyzer.py`:
row counts of the four dataframe filters
`year < 1950`, `1950 <= year < 1980`, `1980 <= year < 2000`, `year >= 2000`. -/
def age_analysis (L : Library) : AgeCategories where
  classic_books := (L.books.filter (fun b => decide (b.year < 1950))).length
  mid_century_books :=
    (L.books.filter (fun b => decide (1950 ≤ b.year) && decide (b.year < 1980))).length
  modern_books :=
    (L.books.filter (fun b => decide (1980 ≤ b.year) && decide (b.year < 2000))).length
  contemporary_books := (L.books.filter (fun b => decide (2000 ≤ b.year))).length

end LibraryAnalyzer

namespace Settings

/-- The process environment: a partial map from variable names to values,
modelling `os.getenv`. -/
abbrev Env := PyStr → Option PyStr

/-- The required credential variable. -/
def apiKeyVar : PyStr := "GEMINI_API_KEY".toList

/-- The error message of `Settings._validate_config`. -/
def configErrorMsg : PyStr :=
  ("GEMINI_API_KEY not found in environment variables. " ++
   "Please create a .env file with your API key.").toList

/-- The validated configuration state held by a constructed `Settings`. -/
structure State where
  api_key : PyStr
deriving DecidableEq

/-- `Settings.__init__` / `Settings._validate_config` from
`src/config/settings.py`: look up `GEMINI_API_KEY`; `if not api_key`
(absent or empty string) raise `ValueError`, else store the key. -/
def construct (env : Env) : Except PyStr State :=
  match env apiKeyVar with
  | none => .error configErrorMsg
  | some k => if k = [] then .error configErrorMsg else .ok ⟨k⟩

/-- Python `int()` on the optionally-signed decimal strings used for
`MAX_TOKENS`; anything else raises, modelled as `none`. -/
def pyInt (s : PyStr) : Option Int :=
  match s with
  | '-' :: ds => (pyDigits ds).map (fun n => -(n : Int))
  | ds => (pyDigits ds).map (fun n => (n : Int))
where
  /-- The value of a non-empty all-digit string. -/
  pyDigits (ds : PyStr) : Option Nat :=
    if ds.isEmpty || !ds.all Char.isDigit then none
    else some (ds.foldl (fun a c => a * 10 + (c.toNat - 48)) 0)

/-- `Settings.model_name`: `os.getenv("GEMINI_MODEL", "gemini-2.5-flash")`. -/
def model_name (env : Env) : PyStr :=
  (env ("GEMINI_MODEL".toList)).getD ("gemini-2.5-flash".toList)

/-- `Settings.max_tokens`: `int(os.getenv("MAX_TOKENS", "1000"))`. -/
def max_tokens (env : Env) : Option Int :=
  pyInt ((env ("MAX_TOKENS".toList)).getD ("1000".toList))

/-- `Settings.output_dir`: `os.getenv("OUTPUT_DIR", "output")`. -/
def output_dir (env : Env) : PyStr :=
  (env ("OUTPUT_DIR".toList)).getD ("output".toList)

end Settings

/-- Spec-side acceptance predicate for a book entry, written from the
claim's words: the entry supplies a non-empty `title` string, a non-empty
`author` string, and an in-range `year` integer. -/
def specBookAccepted (cy : Int) (j : Json) : Bool :=
  match j with
  | .obj fields =>
    (match jLookup fields titleKey with
     | some (.str t) => !(pyStrip t).isEmpty
     | _ => false) &&
    (match jLookup fields authorKey with
     | some (.str a) => !(pyStrip a).isEmpty
     | _ => false) &&
    (match jLookup fields yearKey with
     | some (.num y) => decide (1000 < y) && decide (y ≤ cy)
     | _ => false)
  | _ => false

/-- Spec-side acceptance predicate for the whole parsed object, written
from the claim's words: a key-value object supplying a non-empty `name`
string and a `books` list each of whose entries is a valid book —
anything else (missing field, empty string, out-of-range year, one bad
book entry) is rejected. -/
def specLibraryAccepted (cy : Int) (j : Json) : Bool :=
  match j with
  | .obj fields =>
    (match jLookup fields nameKey with
     | some (.str n) => !(pyStrip n).isEmpty
     | _ => false) &&
    (match jLookup fields booksKey with
     | some (.arr bs) => bs.all (specBookAccepted cy)
     | _ => false)
  | _ => false

/-- The field constraints of a constructed `Book`: non-empty title and
author, year strictly above 1000 and at most the current year. -/
def Book.satisfiesConstraints (cy : Int) (b : Book) : Bool :=
  !b.title.isEmpty && !b.author.isEmpty && decide (1000 < b.year) && decide (b.year ≤ cy)

/-- A `Book` value as produced by validated construction: stripped string
fields satisfying all field constraints. -/
def Book.wellFormed (cy : Int) (b : Book) : Bool :=
  (pyStrip b.title == b.title) && (pyStrip b.author == b.author) &&
    b.satisfiesConstraints cy

/-- A `Library` value as produced by validated construction: stripped
non-empty name and well-formed books. -/
def Library.wellFormed (cy : Int) (L : Library) : Bool :=
  (pyStrip L.name == L.name) && !L.name.isEmpty && L.books.all (Book.wellFormed cy)

/-! ## Helper lemmas about `pyStrip` -/

theorem dropWhile_idem {α : Type} (p : α → Bool) (l : List α) :
    (l.dropWhile p).dropWhile p = l.dropWhile p := by
  induction l with
  | nil => rfl
  | cons a t ih =>
    cases h : p a with
    | true => simpa [List.dropWhile_cons, h] using ih
    | false => simp [List.dropWhile_cons, h]

theorem head_false_of_dropWhile_fix {α : Type} {p : α → Bool} {a : α} {t : List α}
    (h : (a :: t).dropWhile p = a :: t) : p a = false := by
  cases hp : p a with
  | false => rfl
  | true =>
    exfalso
    rw [List.dropWhile_cons_of_pos hp] at h
    have hs : (a :: t).Sublist t := h ▸ List.dropWhile_sublist p
    have hl := hs.length_le
    simp only [List.length_cons] at hl
    omega

theorem stripLeft_of_stripRight {p : Char → Bool} {l : PyStr} (hl : l.dropWhile p = l) :
    ((l.reverse.dropWhile p).reverse).dropWhile p = (l.reverse.dropWhile p).reverse := by
  cases hr : (l.reverse.dropWhile p).reverse with
  | nil => rfl
  | cons c r =>
    have hsuf : l.reverse.dropWhile p <:+ l.reverse := List.dropWhile_suffix p
    have hpre : c :: r <+: l := by
      rw [← List.reverse_reverse l]
      rw [← hr]
      exact List.reverse_prefix.mpr hsuf
    obtain ⟨s, hs⟩ := hpre
    have hc : p c = false := by
      apply head_false_of_dropWhile_fix (t := r ++ s)
      rw [← List.cons_append, hs]
      exact hl
    rw [List.dropWhile_cons_of_neg (by simp [hc])]

theorem pyStripLeft_pyStrip (s : PyStr) : pyStripLeft (pyStrip s) = pyStrip s := by
  have h := stripLeft_of_stripRight (p := isPySpace) (l := pyStripLeft s)
    (dropWhile_idem isPySpace s)
  exact h

theorem pyStrip_idem (s : PyStr) : pyStrip (pyStrip s) = pyStrip s := by
  have h1 := pyStripLeft_pyStrip s
  show ((pyStripLeft (pyStrip s)).reverse.dropWhile isPySpace).reverse = pyStrip s
  rw [h1]
  show (((pyStripLeft s).reverse.dropWhile isPySpace).reverse.reverse.dropWhile
    isPySpace).reverse = _
  rw [List.reverse_reverse, dropWhile_idem]
  rfl

theorem pyStrip_eq_self {l : PyStr}
    (hh : ∀ c, l.head? = some c → isPySpace c = false)
    (hr : ∀ c, l.reverse.head? = some c → isPySpace c = false) :
    pyStrip l = l := by
  have h1 : pyStripLeft l = l := by
    cases l with
    | nil => rfl
    | cons a t =>
      have ha := hh a rfl
      simp [pyStripLeft, List.dropWhile_cons, ha]
  show ((pyStripLeft l).reverse.dropWhile isPySpace).reverse = l
  rw [h1]
  cases hrv : l.reverse with
  | nil =>
    rw [List.reverse_eq_nil_iff] at hrv
    subst hrv
    rfl
  | cons a t =>
    have ha := hr a (by rw [hrv]; rfl)
    rw [List.dropWhile_cons_of_neg (by simp [ha]), ← hrv, List.reverse_reverse]

theorem pyStrip_nil : pyStrip [] = [] := rfl

/-! ## Claims C2 and C6: the response text normalizer on empty and clean input -/

/-- C2 (amended): `clean_json_response` raises the empty-input error for
exactly the empty string; a whitespace-only input is not rejected but
normalized to the empty string; and on empty input the failure happens in
the cleaner, before any downstream JSON parsing runs. -/
theorem clean_json_response_empty_spec :
    (∀ s : PyStr, (∃ e, JSONCleaner.clean_json_response s = .error e) ↔ s = []) ∧
    (∀ s : PyStr, s ≠ [] → pyStrip s = [] →
      JSONCleaner.clean_json_response s = .ok []) ∧
    (∀ validate : PyStr → Except PyStr Json,
      (JSONCleaner.clean_json_response []).bind validate = .error JSONCleaner.emptyMsg) := by
  refine ⟨fun s => ?_, fun s h0 hws => ?_, fun validate => rfl⟩
  · constructor
    · rintro ⟨e, he⟩
      by_contra h0
      unfold JSONCleaner.clean_json_response at he
      rw [if_neg h0] at he
      exact absurd he (by simp)
    · rintro rfl
      exact ⟨JSONCleaner.emptyMsg, rfl⟩
  · unfold JSONCleaner.clean_json_response
    rw [if_neg h0, hws]
    rfl

/-- C2 witness: a tab-only input is cleaned to the empty string, not
rejected. -/
theorem clean_json_response_empty_spec_witness :
    JSONCleaner.clean_json_response ("\t".toList) = .ok [] :=
  clean_json_response_empty_spec.2.1 _ (by decide) (by rfl)

/-- C2 counterexample: a whitespace-only input (a single space) does not
raise; it returns the empty string, an `ok` result distinct from every
`error`. -/
theorem clean_json_response_space_no_error :
    JSONCleaner.clean_json_response (" ".toList) = .ok ([] : PyStr) ∧
      (Except.ok ([] : PyStr) : Except PyStr PyStr) ≠ .error JSONCleaner.emptyMsg := by
  exact ⟨rfl, by simp⟩

/-- If the bare fence is not a prefix, neither is the json-tagged fence
(which extends it). -/
theorem fenceJson_not_prefixOf {l : PyStr}
    (h : JSONCleaner.fenceMarker.isPrefixOf l = false) :
    JSONCleaner.fenceJsonMarker.isPrefixOf l = false := by
  cases hc : JSONCleaner.fenceJsonMarker.isPrefixOf l with
  | false => rfl
  | true =>
    exfalso
    rw [ List.isPrefixOf_iff_prefix] at hc
    have hf : JSONCleaner.fenceMarker <+: JSONCleaner.fenceJsonMarker := by decide
    have h2 : JSONCleaner.fenceMarker.isPrefixOf l = true :=
      List.isPrefixOf_iff_prefix.mpr (hf.trans hc)
    rw [h] at h2
    exact Bool.false_ne_true h2

/-- Evaluation of the cleaner on non-empty trimmed text with no fence
marker at either end: it is returned unchanged. -/
theorem clean_eval_no_fence (t : PyStr) (h0 : t ≠ [])
    (hs : pyStrip t = t)
    (hp : JSONCleaner.fenceMarker.isPrefixOf t = false)
    (he : JSONCleaner.fenceMarker.isSuffixOf t = false) :
    JSONCleaner.clean_json_response t = .ok t := by
  unfold JSONCleaner.clean_json_response
  rw [if_neg h0]
  simp [hs, fenceJson_not_prefixOf hp, hp, he]

/-- C6: the normalizer is the identity on non-empty trimmed text with no
fence marker at either end, and hence idempotent there. -/
theorem clean_json_response_idem (t : PyStr) (h0 : t ≠ [])
    (hs : pyStrip t = t)
    (hp : JSONCleaner.fenceMarker.isPrefixOf t = false)
    (he : JSONCleaner.fenceMarker.isSuffixOf t = false) :
    JSONCleaner.clean_json_response t = .ok t ∧
      (JSONCleaner.clean_json_response t).bind JSONCleaner.clean_json_response =
        JSONCleaner.clean_json_response t := by
  have hok := clean_eval_no_fence t h0 hs hp he
  refine ⟨hok, ?_⟩
  rw [hok]
  show JSONCleaner.clean_json_response t = .ok t
  exact hok

/-- C6 witness at the clean JSON text `null`. -/
theorem clean_json_response_idem_witness :
    JSONCleaner.clean_json_response ("null".toList) = .ok ("null".toList) ∧
      (JSONCleaner.clean_json_response ("null".toList)).bind
          JSONCleaner.clean_json_response =
        JSONCleaner.clean_json_response ("null".toList) :=
  clean_json_response_idem ("null".toList) (by decide) (by rfl) (by rfl) (by rfl)

/-! ## Claim C3: fence stripping -/

/-- The language tag recognised by the cleaner. -/
def jsonTag : PyStr := "json".toList

theorem nospace_of_head_eq {l : PyStr} {d : Char} (hd : l.head? = some d)
    (hns : isPySpace d = false) : ∀ c, l.head? = some c → isPySpace c = false := by
  intro c hc
  rw [hd] at hc
  cases hc
  exact hns

/-- Text whose first and last characters are backticks is unaffected by
stripping. -/
theorem pyStrip_backtick_ends (a : PyStr) (hhead : a.head? = some '\x60')
    (hlast : a.reverse.head? = some '\x60') : pyStrip a = a :=
  pyStrip_eq_self (nospace_of_head_eq hhead (by decide))
    (nospace_of_head_eq hlast (by decide))

theorem head?_reverse_fence_append (u : PyStr) :
    ((u ++ JSONCleaner.fenceMarker).reverse).head? = some '\x60' := by
  rw [List.reverse_append]
  simp [JSONCleaner.fenceMarker]

theorem drop_fenceJson (mid : PyStr) :
    List.drop 7 (JSONCleaner.fenceJsonMarker ++ mid ++ JSONCleaner.fenceMarker) =
      mid ++ JSONCleaner.fenceMarker := by
  rw [List.append_assoc]
  exact List.drop_left' (by decide)

theorem drop_fence (mid : PyStr) :
    List.drop 3 (JSONCleaner.fenceMarker ++ mid ++ JSONCleaner.fenceMarker) =
      mid ++ JSONCleaner.fenceMarker := by
  rw [List.append_assoc]
  exact List.drop_left' (by decide)

theorem fence_isSuffixOf_append (u : PyStr) :
    JSONCleaner.fenceMarker.isSuffixOf (u ++ JSONCleaner.fenceMarker) = true := by
  show JSONCleaner.fenceMarker.reverse.isPrefixOf
    (u ++ JSONCleaner.fenceMarker).reverse = true
  rw [List.reverse_append]
  simp [JSONCleaner.fenceMarker, List.isPrefixOf]

theorem take_strips_fence (u : PyStr) :
    (u ++ JSONCleaner.fenceMarker).take ((u ++ JSONCleaner.fenceMarker).length - 3) = u := by
  rw [List.length_append,
    show JSONCleaner.fenceMarker.length = 3 from by decide, Nat.add_sub_cancel]
  exact List.take_left u JSONCleaner.fenceMarker

/-- Evaluation of the cleaner on a json-tagged fenced payload: the whole
7-character marker and the trailing fence are removed, then the payload is
stripped. -/
theorem clean_json_fenced (mid : PyStr) :
    JSONCleaner.clean_json_response
        (JSONCleaner.fenceJsonMarker ++ mid ++ JSONCleaner.fenceMarker) =
      .ok (pyStrip mid) := by
  have hne : JSONCleaner.fenceJsonMarker ++ mid ++ JSONCleaner.fenceMarker ≠ [] := by
    simp [JSONCleaner.fenceJsonMarker]
  have hstrip := pyStrip_backtick_ends
    (JSONCleaner.fenceJsonMarker ++ mid ++ JSONCleaner.fenceMarker)
    (by simp [JSONCleaner.fenceJsonMarker])
    (head?_reverse_fence_append _)
  have hpref : JSONCleaner.fenceJsonMarker.isPrefixOf
      (JSONCleaner.fenceJsonMarker ++ mid ++ JSONCleaner.fenceMarker) = true := by
    simp [JSONCleaner.fenceJsonMarker, JSONCleaner.fenceMarker, List.isPrefixOf]
  unfold JSONCleaner.clean_json_response
  rw [if_neg hne]
  simp only [hstrip, hpref, if_true, drop_fenceJson, fence_isSuffixOf_append,
    take_strips_fence]

/-- Evaluation of the cleaner on a bare-fenced payload whose content does
not begin with the `json` tag: only three characters are removed in front,
the trailing fence is removed, then the payload is stripped. -/
theorem clean_bare_fenced (mid : PyStr)
    (hj : jsonTag.isPrefixOf (mid ++ JSONCleaner.fenceMarker) = false) :
    JSONCleaner.clean_json_response
        (JSONCleaner.fenceMarker ++ mid ++ JSONCleaner.fenceMarker) =
      .ok (pyStrip mid) := by
  have hne : JSONCleaner.fenceMarker ++ mid ++ JSONCleaner.fenceMarker ≠ [] := by
    simp [JSONCleaner.fenceMarker]
  have hstrip := pyStrip_backtick_ends
    (JSONCleaner.fenceMarker ++ mid ++ JSONCleaner.fenceMarker)
    (by simp [JSONCleaner.fenceMarker])
    (head?_reverse_fence_append _)
  have hjpref : JSONCleaner.fenceJsonMarker.isPrefixOf
      (JSONCleaner.fenceMarker ++ mid ++ JSONCleaner.fenceMarker) =
      jsonTag.isPrefixOf (mid ++ JSONCleaner.fenceMarker) := by
    simp [JSONCleaner.fenceJsonMarker, JSONCleaner.fenceMarker, jsonTag,
      List.isPrefixOf]
  have hpref : JSONCleaner.fenceMarker.isPrefixOf
      (JSONCleaner.fenceMarker ++ mid ++ JSONCleaner.fenceMarker) = true := by
    simp [JSONCleaner.fenceMarker, List.isPrefixOf]
  unfold JSONCleaner.clean_json_response
  rw [if_neg hne]
  simp only [hstrip, hjpref, hj, hpref, if_true, Bool.false_eq_true, if_false,
    drop_fence, fence_isSuffixOf_append, take_strips_fence]

/-- A list that does not begin with `json` still does not once the closing
fence is appended (the fence's backticks cannot complete the tag). -/
theorem jsonTag_not_prefixOf_append_fence : ∀ {w : PyStr},
    jsonTag.isPrefixOf w = false →
    jsonTag.isPrefixOf (w ++ JSONCleaner.fenceMarker) = false
  | [], _ => by decide
  | [c1], _ => by
    simp +decide [jsonTag, List.isPrefixOf, JSONCleaner.fenceMarker]
  | [c1, c2], _ => by
    simp +decide [jsonTag, List.isPrefixOf, JSONCleaner.fenceMarker]
  | [c1, c2, c3], _ => by
    simp +decide [jsonTag, List.isPrefixOf, JSONCleaner.fenceMarker]
  | c1 :: c2 :: c3 :: c4 :: rest, h => by
    simpa [jsonTag, List.isPrefixOf] using h

/-- C3 (amended): on trimmed fence-free payloads, the cleaner removes
exactly one leading marker — the full 7-character marker only for the
specific tag `json`; a bare fence loses exactly three backticks, so any
other language tag stays in the text — one trailing fence if present, and
leaves fence-free input unchanged apart from trimming. -/
theorem clean_json_response_fence_stripping (w : PyStr) (hw : w ≠ [])
    (hs : pyStrip w = w)
    (hp : JSONCleaner.fenceMarker.isPrefixOf w = false)
    (he : JSONCleaner.fenceMarker.isSuffixOf w = false) :
    JSONCleaner.clean_json_response
        (JSONCleaner.fenceJsonMarker ++ w ++ JSONCleaner.fenceMarker) = .ok w ∧
    (jsonTag.isPrefixOf w = false →
      JSONCleaner.clean_json_response
        (JSONCleaner.fenceMarker ++ w ++ JSONCleaner.fenceMarker) = .ok w) ∧
    JSONCleaner.clean_json_response w = .ok w ∧
    JSONCleaner.clean_json_response
        (JSONCleaner.fenceMarker ++
          (JSONCleaner.fenceMarker ++ w ++ JSONCleaner.fenceMarker) ++
          JSONCleaner.fenceMarker) =
      .ok (JSONCleaner.fenceMarker ++ w ++ JSONCleaner.fenceMarker) := by
  refine ⟨?_, fun hj => ?_, clean_eval_no_fence w hw hs hp he, ?_⟩
  · rw [clean_json_fenced, hs]
  · rw [clean_bare_fenced w (jsonTag_not_prefixOf_append_fence hj), hs]
  · rw [clean_bare_fenced
      (JSONCleaner.fenceMarker ++ w ++ JSONCleaner.fenceMarker)
      (by simp [jsonTag, JSONCleaner.fenceMarker, List.isPrefixOf])]
    rw [pyStrip_backtick_ends _ (by simp [JSONCleaner.fenceMarker])
      (head?_reverse_fence_append _)]

/-- C3 witness at the payload `null`, wrapped in a json-tagged fence. -/
theorem clean_json_response_fence_stripping_witness :
    JSONCleaner.clean_json_response
        (JSONCleaner.fenceJsonMarker ++ "null".toList ++ JSONCleaner.fenceMarker) =
      .ok ("null".toList) :=
  (clean_json_response_fence_stripping ("null".toList)
    (by decide) (by rfl) (by rfl) (by rfl)).1

/-- C3 counterexample: for the python-tagged fence the code does not
remove the whole tagged marker — the tag `python` survives in the output,
so the cleaned text differs from the fully-unwrapped payload `null`. -/
theorem clean_json_response_python_tag_cex :
    JSONCleaner.clean_json_response ("```python\nnull\n```".toList) =
      .ok ("python\nnull".toList) ∧
    ("python\nnull".toList : PyStr) ≠ "null".toList :=
  ⟨rfl, by decide⟩

/-! ## Validation lemmas for `Book` and `Library` -/

theorem Book.construct_eq_some_iff {cy : Int} {t a : PyStr} {y : Int} {b : Book} :
    Book.construct cy t a y = some b ↔
      pyStrip t ≠ [] ∧ pyStrip a ≠ [] ∧ 1000 < y ∧ y ≤ cy ∧
        b = ⟨pyStrip t, pyStrip a, y⟩ := by
  unfold Book.construct
  split
  next h =>
    simp only [Option.some.injEq]
    constructor
    · rintro rfl
      exact ⟨h.1, h.2.1, h.2.2.1, h.2.2.2, rfl⟩
    · rintro ⟨_, _, _, _, rfl⟩
      rfl
  next h =>
    constructor
    · intro hx
      exact Option.noConfusion hx
    · rintro ⟨h1, h2, h3, h4, _⟩
      exact absurd ⟨h1, h2, h3, h4⟩ h

theorem Book.construct_isSome_iff (cy : Int) (t a : PyStr) (y : Int) :
    (Book.construct cy t a y).isSome = true ↔
      (pyStrip t ≠ [] ∧ pyStrip a ≠ [] ∧ 1000 < y ∧ y ≤ cy) := by
  unfold Book.construct
  split
  next h => exact iff_of_true rfl h
  next h => exact iff_of_false (by simp) h

theorem book_validate_inv {cy : Int} {j : Json} {b : Book}
    (h : Book.model_validate cy j = some b) :
    ∃ fields t a y, j = .obj fields ∧
      jLookup fields titleKey = some (.str t) ∧
      jLookup fields authorKey = some (.str a) ∧
      jLookup fields yearKey = some (.num y) ∧
      Book.construct cy t a y = some b := by
  cases j with
  | obj fields =>
    simp only [Book.model_validate] at h
    split at h
    all_goals
      first
        | exact Option.noConfusion h
        | (rename_i t a y hT hA hY
           exact ⟨fields, t, a, y, rfl, hT, hA, hY, h⟩)
  | null => exact Option.noConfusion h
  | bool x => exact Option.noConfusion h
  | num n => exact Option.noConfusion h
  | str s => exact Option.noConfusion h
  | arr xs => exact Option.noConfusion h

theorem Book.model_validate_wellFormed {cy : Int} {j : Json} {b : Book}
    (h : Book.model_validate cy j = some b) : Book.wellFormed cy b = true := by
  obtain ⟨fields, t, a, y, _, _, _, _, hc⟩ := book_validate_inv h
  rw [Book.construct_eq_some_iff] at hc
  obtain ⟨ht, ha, hy1, hy2, rfl⟩ := hc
  simp [Book.wellFormed, Book.satisfiesConstraints, pyStrip_idem, ht, ha, hy1, hy2]

theorem Book.construct_isSome_eq (cy : Int) (t a : PyStr) (y : Int) :
    (Book.construct cy t a y).isSome =
      (!(pyStrip t).isEmpty && !(pyStrip a).isEmpty &&
        (decide (1000 < y) && decide (y ≤ cy))) := by
  by_cases h1 : pyStrip t = [] <;> by_cases h2 : pyStrip a = [] <;>
    by_cases h3 : 1000 < y <;> by_cases h4 : y ≤ cy <;>
      simp [Book.construct, h1, h2, h3, h4]

theorem book_validate_isSome_eq_spec (cy : Int) (j : Json) :
    (Book.model_validate cy j).isSome = specBookAccepted cy j := by
  cases j with
  | obj fields =>
    rcases hT : jLookup fields titleKey with _ | vT <;>
      rcases hA : jLookup fields authorKey with _ | vA <;>
        rcases hY : jLookup fields yearKey with _ | vY <;>
          simp only [Book.model_validate, specBookAccepted, hT, hA, hY] <;>
            (try cases vT) <;> (try cases vA) <;> (try cases vY) <;>
              first
                | rfl
                | exact Book.construct_isSome_eq _ _ _ _
                | simp
  | null => rfl
  | bool x => rfl
  | num n => rfl
  | str s => rfl
  | arr xs => rfl

theorem validateBooks_isSome_eq (cy : Int) (bs : List Json) :
    (validateBooks cy bs).isSome =
      bs.all (fun j => (Book.model_validate cy j).isSome) := by
  induction bs with
  | nil => rfl
  | cons j js ih =>
    simp only [validateBooks, List.all_cons]
    rcases hb : Book.model_validate cy j with _ | b <;>
      rcases hbs : validateBooks cy js with _ | out <;>
        simp [hb, hbs, ← ih]

theorem validateBooks_mem_wellFormed {cy : Int} {bs : List Json} {out : List Book}
    (h : validateBooks cy bs = some out) :
    ∀ b ∈ out, Book.wellFormed cy b = true := by
  induction bs generalizing out with
  | nil =>
    simp only [validateBooks] at h
    cases h
    simp
  | cons j js ih =>
    simp only [validateBooks] at h
    rcases hb : Book.model_validate cy j with _ | b0 <;> rw [hb] at h
    · exact Option.noConfusion h
    · rcases hbs : validateBooks cy js with _ | out0 <;> rw [hbs] at h
      · exact Option.noConfusion h
      · cases h
        intro b hbm
        rcases List.mem_cons.mp hbm with rfl | hmem
        · exact Book.model_validate_wellFormed hb
        · exact ih hbs b hmem

theorem library_validate_inv {cy : Int} {j : Json} {L : Library}
    (h : Library.model_validate cy j = some L) :
    ∃ fields n bs, j = .obj fields ∧
      jLookup fields nameKey = some (.str n) ∧
      jLookup fields booksKey = some (.arr bs) ∧
      pyStrip n ≠ [] ∧ L.name = pyStrip n ∧ validateBooks cy bs = some L.books := by
  cases j with
  | obj fields =>
    simp only [Library.model_validate] at h
    split at h
    all_goals
      first
        | exact Option.noConfusion h
        | (rename_i n bs hN hB
           split at h
           · rename_i hcond
             rw [Option.map_eq_some'] at h
             obtain ⟨books, hbooks, hL⟩ := h
             exact ⟨fields, n, bs, rfl, hN, hB, hcond, by rw [← hL],
               by rw [← hL]; exact hbooks⟩
           · exact Option.noConfusion h)
  | null => exact Option.noConfusion h
  | bool x => exact Option.noConfusion h
  | num n => exact Option.noConfusion h
  | str s => exact Option.noConfusion h
  | arr xs => exact Option.noConfusion h


theorem library_validate_isSome_eq_spec (cy : Int) (j : Json) :
    (Library.model_validate cy j).isSome = specLibraryAccepted cy j := by
  cases j with
  | obj fields =>
    rcases hN : jLookup fields nameKey with _ | vN
    · simp [Library.model_validate, specLibraryAccepted, hN]
    · rcases hB : jLookup fields booksKey with _ | vB
      · cases vN <;> simp [Library.model_validate, specLibraryAccepted, hN, hB]
      · cases vN with
        | str n =>
          cases vB with
          | arr bs =>
            simp only [Library.model_validate, specLibraryAccepted, hN, hB]
            by_cases hn : pyStrip n = []
            · simp [hn]
            · rw [if_pos hn, Option.isSome_map', validateBooks_isSome_eq]
              have hne : (!(pyStrip n).isEmpty) = true := by simp [hn]
              rw [hne, Bool.true_and]
              simp only [book_validate_isSome_eq_spec]
          | null => simp [Library.model_validate, specLibraryAccepted, hN, hB]
          | bool x => simp [Library.model_validate, specLibraryAccepted, hN, hB]
          | num x => simp [Library.model_validate, specLibraryAccepted, hN, hB]
          | str x => simp [Library.model_validate, specLibraryAccepted, hN, hB]
          | obj x => simp [Library.model_validate, specLibraryAccepted, hN, hB]
        | null => cases vB <;> simp [Library.model_validate, specLibraryAccepted, hN, hB]
        | bool x => cases vB <;> simp [Library.model_validate, specLibraryAccepted, hN, hB]
        | num x => cases vB <;> simp [Library.model_validate, specLibraryAccepted, hN, hB]
        | arr x => cases vB <;> simp [Library.model_validate, specLibraryAccepted, hN, hB]
        | obj x => cases vB <;> simp [Library.model_validate, specLibraryAccepted, hN, hB]
  | null => rfl
  | bool x => rfl
  | num n => rfl
  | str s => rfl
  | arr xs => rfl

/-! ## Claim C4: all-or-nothing library construction -/

/-- C4: validation of a parsed object succeeds exactly when the spec-side
acceptance predicate holds (a key-value object with a non-empty `name`
string and a `books` list every entry of which is valid — any missing
field, empty string, out-of-range year or single bad book entry fails the
whole construction), and a returned `Library` has a non-empty name and
only books satisfying every field constraint. -/
theorem library_validation_all_or_nothing (cy : Int) (j : Json) :
    ((Library.model_validate cy j).isSome = specLibraryAccepted cy j) ∧
    (∀ L, Library.model_validate cy j = some L →
      L.name ≠ [] ∧ ∀ b ∈ L.books, Book.satisfiesConstraints cy b = true) := by
  refine ⟨library_validate_isSome_eq_spec cy j, fun L h => ?_⟩
  obtain ⟨fields, n, bs, rfl, hN, hB, hne, hname, hbooks⟩ :=
    library_validate_inv h
  refine ⟨by rw [hname]; exact hne, fun b hb => ?_⟩
  have hw := validateBooks_mem_wellFormed hbooks b hb
  simp only [Book.wellFormed, Bool.and_eq_true] at hw
  exact hw.2

/-- C4 witness: a concrete valid object validates, and the theorem yields
non-empty name and constraint-satisfying books for it. -/
theorem library_validation_all_or_nothing_witness :
    ("L".toList : PyStr) ≠ [] ∧
      ∀ b ∈ ([⟨"T".toList, "A".toList, 2000⟩] : List Book),
        Book.satisfiesConstraints 2025 b = true :=
  (library_validation_all_or_nothing 2025
      (.obj [(nameKey, .str ("L".toList)),
             (booksKey, .arr [Book.model_dump ⟨"T".toList, "A".toList, 2000⟩])])).2
    ⟨"L".toList, [⟨"T".toList, "A".toList, 2000⟩]⟩ (by decide)

/-! ## Claim C5: serialization round-trip -/

theorem Book.model_validate_model_dump {cy : Int} {b : Book}
    (h : Book.wellFormed cy b = true) :
    Book.model_validate cy (Book.model_dump b) = some b := by
  obtain ⟨t0, a0, y0⟩ := b
  simp only [Book.wellFormed, Book.satisfiesConstraints, Bool.and_eq_true,
    beq_iff_eq, Bool.not_eq_true', List.isEmpty_eq_false, decide_eq_true_eq] at h
  obtain ⟨⟨hts, has⟩, ⟨⟨htE, haE⟩, hy1⟩, hy2⟩ := h
  have hT : jLookup [(titleKey, Json.str t0), (authorKey, Json.str a0),
      (yearKey, Json.num y0)] titleKey = some (Json.str t0) := by
    simp +decide [jLookup, List.find?, titleKey, authorKey, yearKey, nameKey, booksKey]
  have hA : jLookup [(titleKey, Json.str t0), (authorKey, Json.str a0),
      (yearKey, Json.num y0)] authorKey = some (Json.str a0) := by
    simp +decide [jLookup, List.find?, titleKey, authorKey, yearKey, nameKey, booksKey]
  have hY : jLookup [(titleKey, Json.str t0), (authorKey, Json.str a0),
      (yearKey, Json.num y0)] yearKey = some (Json.num y0) := by
    simp +decide [jLookup, List.find?, titleKey, authorKey, yearKey, nameKey, booksKey]
  simp only [Book.model_dump, Book.model_validate, hT, hA, hY]
  rw [Book.construct_eq_some_iff]
  exact ⟨by rw [hts]; exact htE, by rw [has]; exact haE, hy1, hy2, by simp [hts, has]⟩

theorem validateBooks_model_dump {cy : Int} {books : List Book}
    (h : books.all (Book.wellFormed cy) = true) :
    validateBooks cy (books.map Book.model_dump) = some books := by
  induction books with
  | nil => rfl
  | cons b bs ih =>
    rw [List.all_cons, Bool.and_eq_true] at h
    simp only [List.map_cons, validateBooks, Book.model_validate_model_dump h.1,
      ih h.2]

/-- C5: serializing a well-formed `Library` (`model_dump`, the value
rendered by `model_dump_json` / `save_library_json`) and re-validating it
(`model_validate`, as run by `load_library_json`) returns the original
library field-for-field. -/
theorem library_roundtrip (cy : Int) (L : Library)
    (h : Library.wellFormed cy L = true) :
    Library.model_validate cy (Library.model_dump L) = some L := by
  obtain ⟨n0, books0⟩ := L
  simp only [Library.wellFormed, Bool.and_eq_true, beq_iff_eq, Bool.not_eq_true',
    List.isEmpty_eq_false] at h
  obtain ⟨⟨hns, hne⟩, hbooks⟩ := h
  have hN : jLookup [(nameKey, Json.str n0),
      (booksKey, Json.arr (books0.map Book.model_dump))] nameKey =
      some (Json.str n0) := by
    simp +decide [jLookup, List.find?, titleKey, authorKey, yearKey, nameKey, booksKey]
  have hB : jLookup [(nameKey, Json.str n0),
      (booksKey, Json.arr (books0.map Book.model_dump))] booksKey =
      some (Json.arr (books0.map Book.model_dump)) := by
    simp +decide [jLookup, List.find?, titleKey, authorKey, yearKey, nameKey, booksKey]
  simp only [Library.model_dump, Library.model_validate, hN, hB]
  rw [hns, if_pos hne, validateBooks_model_dump hbooks]
  rfl

/-- C5 witness: a concrete one-book library round-trips. -/
theorem library_roundtrip_witness :
    Library.model_validate 2025
        (Library.model_dump ⟨"Lib".toList, [⟨"T".toList, "A".toList, 2000⟩]⟩) =
      some ⟨"Lib".toList, [⟨"T".toList, "A".toList, 2000⟩]⟩ :=
  library_roundtrip 2025 _ (by decide)

/-! ## Claim C1: the publication-year bounds -/

/-- C1 (amended): with non-empty (stripped) title and author, `Book`
construction succeeds exactly for years strictly greater than 1000 and at
most the current year — the code's `gt=1000` makes the lower bound
exclusive, so 1000 itself is rejected. -/
theorem book_year_bounds (cy : Int) (t a : PyStr) (y : Int)
    (ht : pyStrip t ≠ []) (ha : pyStrip a ≠ []) :
    (Book.construct cy t a y).isSome = true ↔ 1000 < y ∧ y ≤ cy := by
  rw [Book.construct_isSome_iff]
  simp [ht, ha]

/-- C1 witness: year 2024 against current year 2025 is accepted. -/
theorem book_year_bounds_witness :
    (Book.construct 2025 ("A".toList) ("B".toList) 2024).isSome = true :=
  (book_year_bounds 2025 ("A".toList) ("B".toList) 2024 (by decide) (by decide)).mpr
    (by decide)

/-- C1 counterexample: the year 1000 lies inside the claimed inclusive
range `[1000, current_year]`, yet construction with non-empty title and
author fails (the code checks `gt=1000`, not `ge=1000`). -/
theorem book_year_1000_rejected_cex :
    ((1000 : Int) ≤ 1000 ∧ (1000 : Int) ≤ 2025) ∧
      Book.construct 2025 ("A".toList) ("B".toList) 1000 = none := by
  exact ⟨by decide, by decide⟩

/-! ## Claim C9: stripped string fields -/

/-- C9: every string field of a successfully constructed `Book` or
`Library` is stored stripped of surrounding whitespace, and a
whitespace-only title, author or library name is rejected as empty. -/
theorem stripped_fields_invariant :
    (∀ cy j b, Book.model_validate cy j = some b →
        pyStrip b.title = b.title ∧ pyStrip b.author = b.author) ∧
    (∀ cy j L, Library.model_validate cy j = some L →
        pyStrip L.name = L.name) ∧
    (∀ cy t a y, pyStrip t = [] → Book.construct cy t a y = none) ∧
    (∀ cy t a y, pyStrip a = [] → Book.construct cy t a y = none) ∧
    (∀ cy fields n, jLookup fields nameKey = some (.str n) →
        pyStrip n = [] → Library.model_validate cy (.obj fields) = none) := by
  refine ⟨fun cy j b h => ?_, fun cy j L h => ?_, fun cy t a y h => ?_,
    fun cy t a y h => ?_, fun cy fields n hN h => ?_⟩
  · have hw := Book.model_validate_wellFormed h
    simp only [Book.wellFormed, Bool.and_eq_true, beq_iff_eq] at hw
    exact ⟨hw.1.1, hw.1.2⟩
  · obtain ⟨fields, n, bs, rfl, hN, hB, hne, hname, hbooks⟩ :=
      library_validate_inv h
    rw [hname, pyStrip_idem]
  · simp [Book.construct, h]
  · simp [Book.construct, h]
  · rcases hB : jLookup fields booksKey with _ | vB
    · simp [Library.model_validate, hN, hB]
    · cases vB <;> simp [Library.model_validate, hN, hB, h]

/-- C9 witness: a whitespace-only title is rejected, and the fields of a
validated book come back stripped. -/
theorem stripped_fields_invariant_witness :
    Book.construct 2025 (" ".toList) ("A".toList) 2000 = none ∧
      (pyStrip ("T".toList) = "T".toList ∧ pyStrip ("A".toList) = "A".toList) :=
  ⟨stripped_fields_invariant.2.2.1 2025 (" ".toList) ("A".toList) 2000 (by decide),
   stripped_fields_invariant.1 2025
     (Book.model_dump ⟨"T".toList, "A".toList, 2000⟩) ⟨"T".toList, "A".toList, 2000⟩
     (by decide)⟩

/-! ## Claim C10: author lookup -/

/-- C10: `get_books_by_author` returns exactly the books whose lowercased
author equals the lowercased query, in their original order (an order-
preserving sub-list of `books` with exact multiplicities); in particular
it is empty when no author matches. -/
theorem get_books_by_author_spec (L : Library) (author : PyStr) :
    (L.get_books_by_author author).Sublist L.books ∧
    (∀ b : Book, (L.get_books_by_author author).count b =
      if pyLower b.author = pyLower author then L.books.count b else 0) ∧
    ((∀ b ∈ L.books, pyLower b.author ≠ pyLower author) →
      L.get_books_by_author author = []) := by
  refine ⟨List.filter_sublist L.books, fun b => ?_, fun hnone => ?_⟩
  · by_cases h : pyLower b.author = pyLower author
    · rw [if_pos h]
      exact List.count_filter (by simp [h])
    · rw [if_neg h, List.count_eq_zero]
      intro hmem
      rw [Library.get_books_by_author, List.mem_filter] at hmem
      exact h (by simpa using hmem.2)
  · rw [Library.get_books_by_author, List.filter_eq_nil_iff]
    intro b hb
    simpa using hnone b hb

/-- C10 witness: lookup is case-insensitive and returns the matching book;
a query matching no author returns the empty list. -/
theorem get_books_by_author_spec_witness :
    (Library.get_books_by_author ⟨"L".toList, [⟨"T".toList, "Ann".toList, 2000⟩]⟩
        ("aNN".toList)).count ⟨"T".toList, "Ann".toList, 2000⟩ = 1 ∧
      Library.get_books_by_author ⟨"L".toList, [⟨"T".toList, "Ann".toList, 2000⟩]⟩
        ("bob".toList) = [] :=
  ⟨by
    have h := (get_books_by_author_spec
      ⟨"L".toList, [⟨"T".toList, "Ann".toList, 2000⟩]⟩ ("aNN".toList)).2.1
      ⟨"T".toList, "Ann".toList, 2000⟩
    rw [h]
    decide,
   (get_books_by_author_spec ⟨"L".toList, [⟨"T".toList, "Ann".toList, 2000⟩]⟩
      ("bob".toList)).2.2 (by decide)⟩

/-! ## Claim C7: decade and age statistics -/

theorem filter_length_of_year_perm {L : Library} {ys : List Int}
    (h : (L.books.map Book.year).Perm ys) (q : Int → Bool) :
    (L.books.filter (fun b => q b.year)).length = (ys.filter q).length := by
  rw [← List.countP_eq_length_filter, ← List.countP_eq_length_filter]
  exact ((List.countP_map q Book.year L.books).symm).trans (h.countP_eq q)

/-- C7: for a library whose books' years are exactly
{1920, 1955, 1985, 2010} (in any order), `decade_analysis` returns the
four decades 1920s, 1950s, 1980s, 2010s with one book each, and
`age_analysis` counts one classic, one mid-century, one modern and one
contemporary book. -/
theorem decade_and_age_statistics (L : Library)
    (h : (L.books.map Book.year).Perm [1920, 1955, 1985, 2010]) :
    LibraryAnalyzer.decade_analysis L =
      [("1920s".toList, 1), ("1950s".toList, 1), ("1980s".toList, 1),
       ("2010s".toList, 1)] ∧
    LibraryAnalyzer.age_analysis L = ⟨1, 1, 1, 1⟩ := by
  constructor
  · have hdec : (L.books.map (fun b => LibraryAnalyzer.decadeOf b.year)).Perm
        ([1920, 1950, 1980, 2010] : List Int) := by
      have h2 := h.map LibraryAnalyzer.decadeOf
      rw [List.map_map] at h2
      exact h2
    show (List.insertionSort (· ≤ ·)
        (L.books.map (fun b => LibraryAnalyzer.decadeOf b.year)).dedup).map _ = _
    have hperm : (List.insertionSort (· ≤ ·)
        (L.books.map (fun b => LibraryAnalyzer.decadeOf b.year)).dedup).Perm
        ([1920, 1950, 1980, 2010] : List Int) :=
      (List.perm_insertionSort _ _).trans (hdec.dedup.trans (by decide))
    have hsort : List.insertionSort (· ≤ ·)
        (L.books.map (fun b => LibraryAnalyzer.decadeOf b.year)).dedup =
        [1920, 1950, 1980, 2010] :=
      List.eq_of_perm_of_sorted hperm (List.sorted_insertionSort _ _) (by decide)
    rw [hsort]
    have hc := hdec.count_eq
    simp only [List.map_cons, List.map_nil]
    rw [hc 1920, hc 1950, hc 1980, hc 2010]
    decide
  · show LibraryAnalyzer.AgeCategories.mk _ _ _ _ = LibraryAnalyzer.AgeCategories.mk 1 1 1 1
    rw [LibraryAnalyzer.AgeCategories.mk.injEq]
    refine ⟨?_, ?_, ?_, ?_⟩
    · exact (filter_length_of_year_perm h (fun y => decide (y < 1950))).trans (by decide)
    · exact (filter_length_of_year_perm h
        (fun y => decide (1950 ≤ y) && decide (y < 1980))).trans (by decide)
    · exact (filter_length_of_year_perm h
        (fun y => decide (1980 ≤ y) && decide (y < 2000))).trans (by decide)
    · exact (filter_length_of_year_perm h (fun y => decide (2000 ≤ y))).trans (by decide)

/-- C7 witness at a concrete four-book library. -/
theorem decade_and_age_statistics_witness :
    LibraryAnalyzer.decade_analysis
        ⟨"L".toList, [⟨"a".toList, "w".toList, 1920⟩, ⟨"b".toList, "x".toList, 1955⟩,
                      ⟨"c".toList, "y".toList, 1985⟩, ⟨"d".toList, "z".toList, 2010⟩]⟩ =
      [("1920s".toList, 1), ("1950s".toList, 1), ("1980s".toList, 1),
       ("2010s".toList, 1)] ∧
    LibraryAnalyzer.age_analysis
        ⟨"L".toList, [⟨"a".toList, "w".toList, 1920⟩, ⟨"b".toList, "x".toList, 1955⟩,
                      ⟨"c".toList, "y".toList, 1985⟩, ⟨"d".toList, "z".toList, 2010⟩]⟩ =
      ⟨1, 1, 1, 1⟩ :=
  decade_and_age_statistics _ (by decide)

/-! ## Claim C8: environment-backed settings -/

/-- C8: settings construction fails exactly when the API-key variable is
absent or empty, and the model name, token budget and output directory
fall back to their documented defaults when their variables are unset. -/
theorem settings_construct_spec (env : Settings.Env) :
    ((∃ e, Settings.construct env = .error e) ↔
      (env Settings.apiKeyVar = none ∨ env Settings.apiKeyVar = some [])) ∧
    (env ("GEMINI_MODEL".toList) = none →
      Settings.model_name env = "gemini-2.5-flash".toList) ∧
    (env ("MAX_TOKENS".toList) = none → Settings.max_tokens env = some 1000) ∧
    (env ("OUTPUT_DIR".toList) = none → Settings.output_dir env = "output".toList) := by
  refine ⟨?_, fun h => ?_, fun h => ?_, fun h => ?_⟩
  · rcases hk : env Settings.apiKeyVar with _ | k
    · simp [Settings.construct, hk]
    · by_cases hke : k = []
      · subst hke
        simp [Settings.construct, hk]
      · simp [Settings.construct, hk, hke]
  · rw [Settings.model_name, h]
    rfl
  · rw [Settings.max_tokens, h]
    decide
  · rw [Settings.output_dir, h]
    rfl

/-- C8 witness at the empty environment: construction fails and every
defaulted property takes its documented default. -/
theorem settings_construct_spec_witness :
    (∃ e, Settings.construct (fun _ => none) = .error e) ∧
      Settings.model_name (fun _ => none) = "gemini-2.5-flash".toList ∧
      Settings.max_tokens (fun _ => none) = some 1000 ∧
      Settings.output_dir (fun _ => none) = "output".toList :=
  ⟨(settings_construct_spec (fun _ => none)).1.mpr (Or.inl rfl),
   (settings_construct_spec (fun _ => none)).2.1 rfl,
   (settings_construct_spec (fun _ => none)).2.2.1 rfl,
   (settings_construct_spec (fun _ => none)).2.2.2 rfl⟩
